import Mathlib

/-!
A shallow embedding of the jrphub/video-recommender pipeline
(src/features/build_features.py, src/vrmodels/train_model.py,
src/vrmodels/recommend.py, src/serving/app.py,
src/evaluation/offline_validation.py) together with proofs of the
behavioural properties claimed for it.  Machine floating-point numbers are
modelled by `ℚ`; Python dictionaries keyed by strings are modelled by
association into a duplicate-free key list; Python exceptions are modelled
by `Except`.
-/

namespace VideoRec

/-- First-seen deduplication: keeps the first occurrence of every element of
the list and drops all later duplicates.  This is the semantics of pandas
`Series.unique()` used in src/features/build_features.py to build the ID
maps, and also the key order produced by `groupby` up to a sort that no
claim depends on. -/
def firstSeen {α : Type} [DecidableEq α] : List α → List α
  | [] => []
  | x :: xs => x :: firstSeen (xs.filter fun y => decide (y ≠ x))
termination_by l => l.length
decreasing_by
  simp only [List.length_cons]
  exact Nat.lt_succ_of_le (List.length_filter_le _ _)

/-- Lookup in a Python dict of the shape `{key: i for i, key in enumerate(keys)}`:
returns the position of the first occurrence of `k` in `keys`, or `none`
(Python `KeyError`) when `k` is absent. -/
def dictLookup {α : Type} [DecidableEq α] : List α → α → Option Nat
  | [], _ => none
  | x :: xs, k => if x = k then some 0 else (dictLookup xs k).map (fun i => i + 1)

/-- Embedding of `precision_at_k` from src/evaluation/offline_validation.py:
`recommended = recommended[:k]`, then `len(set(recommended) & set(relevant)) / k`.
Python sets of strings are modelled by `Finset String`. -/
def precision_at_k (recommended relevant : List String) (k : Nat) : ℚ :=
  (((recommended.take k).toFinset ∩ relevant.toFinset).card : ℚ) / (k : ℚ)

/-- One row of data/interactions.csv as read by src/features/build_features.py. -/
structure Interaction where
  userId : String
  videoId : String
  interactionValue : ℚ
  deriving DecidableEq

/-- Embedding of the aggregation step of src/features/build_features.py:
`interactions.groupby(["userId", "videoId"], as_index=False).agg({"interactionValue": "sum"})`
renamed to `rating`.  One output record per distinct (userId, videoId) pair,
carrying the sum of that pair's interaction values.  (pandas emits the groups
sorted by key; the claims proved below are independent of the record order,
so groups are listed here in first-seen order.) -/
def aggregate (xs : List Interaction) : List (String × String × ℚ) :=
  (firstSeen (xs.map fun x => (x.userId, x.videoId))).map fun p =>
    (p.1, p.2,
      ((xs.filter fun x => decide (x.userId = p.1 ∧ x.videoId = p.2)).map
        fun x => x.interactionValue).sum)

/-- Embedding of `user_map = {u: i for i, u in enumerate(ratings["userId"].unique())}`
from src/features/build_features.py, applied to an aggregated ratings table. -/
def user_map (agg : List (String × String × ℚ)) : String → Option Nat :=
  fun k => dictLookup (firstSeen (agg.map fun a => a.1)) k

/-- Embedding of `video_map = {v: i for i, v in enumerate(ratings["videoId"].unique())}`
from src/features/build_features.py. -/
def video_map (agg : List (String × String × ℚ)) : String → Option Nat :=
  fun k => dictLookup (firstSeen (agg.map fun a => a.2.1)) k

/-- Embedding of `reverse_video_map = {v: k for k, v in video_map.items()}` from
src/vrmodels/recommend.py: the inverse of `video_map`, sending index `i` to
the `i`-th distinct video key. -/
def reverse_video_map (agg : List (String × String × ℚ)) : Nat → Option String :=
  fun i => (firstSeen (agg.map fun a => a.2.1)).get? i

/-- Number of users known to the mapping, `len(user_map)`. -/
def num_users (agg : List (String × String × ℚ)) : Nat :=
  (firstSeen (agg.map fun a => a.1)).length

/-- Number of videos known to the mapping, `len(video_map)`. -/
def num_videos (agg : List (String × String × ℚ)) : Nat :=
  (firstSeen (agg.map fun a => a.2.1)).length

/-- One row of data/ratings.csv with the columns userId, videoId, rating,
user_idx, video_idx produced by src/features/build_features.py. -/
structure RatingRow where
  userId : String
  videoId : String
  rating : ℚ
  user_idx : Nat
  video_idx : Nat
  deriving DecidableEq

/-- Embedding of `ratings["user_idx"] = ratings["userId"].map(user_map)` and
`ratings["video_idx"] = ratings["videoId"].map(video_map)` from
src/features/build_features.py.  For keys of the table both lookups always
succeed, so the `getD 0` default is never used on the rows this function is
applied to. -/
def withIdx (xs : List Interaction) : List RatingRow :=
  (aggregate xs).map fun a =>
    ⟨a.1, a.2.1, a.2.2,
      (user_map (aggregate xs) a.1).getD 0,
      (video_map (aggregate xs) a.2.1).getD 0⟩

/-- Embedding of the training-side interaction matrix of
src/vrmodels/train_model.py:
`coo_matrix((ratings["rating"], (ratings["user_idx"], ratings["video_idx"])), shape=(num_users, num_videos))`.
A COO matrix with duplicate coordinates denotes the sum of the duplicate
entries (this is the semantics applied by every consumer: `tocsr` and
`model.fit` both sum duplicates), so cell (u, i) holds the sum of the ratings
of all rows carrying that coordinate; cells outside the declared shape do not
exist and are rendered here as 0. -/
def trainMatrix (rows : List RatingRow) (numUsers numVideos : Nat) (u i : Nat) : ℚ :=
  if u < numUsers ∧ i < numVideos then
    ((rows.filter fun r => decide (r.user_idx = u ∧ r.video_idx = i)).map
      fun r => r.rating).sum
  else 0

/-- Embedding of the serving-side interaction matrix of
src/vrmodels/recommend.py:
`coo_matrix((ratings["rating"].values, (ratings["user_idx"].values, ratings["video_idx"].values)), shape=(num_users, num_videos)).tocsr()`.
`tocsr()` sums duplicate coordinates, written here as a left fold of
additions over the rows at the coordinate. -/
def user_item_matrix (rows : List RatingRow) (numUsers numVideos : Nat) (u i : Nat) : ℚ :=
  if u < numUsers ∧ i < numVideos then
    (rows.filter fun r => decide (r.user_idx = u ∧ r.video_idx = i)).foldl
      (fun acc r => acc + r.rating) 0
  else 0

/-- Number of items of the row `u` of the interaction matrix that hold a
positive entry — the `interacted_count(u)` of the spec's length invariant. -/
def interactedCount (rows : List RatingRow) (numUsers numVideos u : Nat) : Nat :=
  ((List.range numVideos).filter fun i =>
    decide (0 < user_item_matrix rows numUsers numVideos u i)).length

/-- Constructor arguments of `implicit.als.AlternatingLeastSquares`. -/
structure AlsConfig where
  factors : Nat
  regularization : ℚ
  iterations : Nat
  random_state : Option Nat

/-- Configuration with which src/vrmodels/train_model.py constructs its model:
`AlternatingLeastSquares(factors=20, regularization=0.1, iterations=20)`.
No `random_state` argument is passed at the call site, so the library
default `None` (no fixed seed) applies. -/
def trainModelConfig : AlsConfig :=
  ⟨20, 1 / 10, 20, none⟩

/-- Dot product of two factor rows over `F` latent dimensions. -/
def dotUV (F : Nat) (u v : Nat → ℚ) : ℚ :=
  ((List.range F).map fun f => u f * v f).sum

/-- Ranking order on (item index, score) pairs: higher score first, ties
broken by ascending item index (spec §4.3). -/
def rankLe (a b : Nat × ℚ) : Prop :=
  b.2 < a.2 ∨ (a.2 = b.2 ∧ a.1 ≤ b.1)

instance : DecidableRel rankLe := fun a b => by
  unfold rankLe; infer_instance

instance : IsTotal (Nat × ℚ) rankLe where
  total a b := by
    rcases lt_trichotomy a.2 b.2 with h | h | h
    · exact Or.inr (Or.inl h)
    · rcases Nat.le_total a.1 b.1 with h1 | h1
      · exact Or.inl (Or.inr ⟨h, h1⟩)
      · exact Or.inr (Or.inr ⟨h.symm, h1⟩)
    · exact Or.inl (Or.inl h)

instance : IsTrans (Nat × ℚ) rankLe where
  trans a b c hab hbc := by
    rcases hab with h1 | ⟨h1, h1'⟩ <;> rcases hbc with h2 | ⟨h2, h2'⟩
    · exact Or.inl (lt_trans h2 h1)
    · exact Or.inl (h2 ▸ h1)
    · exact Or.inl (h1.symm ▸ h2)
    · exact Or.inr ⟨h1.trans h2, h1'.trans h2'⟩

/-- Descending-score sort with ascending-index tie-break. -/
def rankSort (l : List (Nat × ℚ)) : List (Nat × ℚ) :=
  List.insertionSort rankLe l

/-- Sentinel score assigned by the implicit library to filtered items:
`-FLT_MAX`, printed as `-3.4028235e+38` in the output recorded in the
comments of src/vrmodels/recommend.py. -/
def negFltMax : ℚ :=
  -340282346638528859811704183484516925440

/-- Score the implicit library assigns to item `i` for the requesting user
when `filter_already_liked_items=True`: the latent-factor dot product
`U_userIdx · V_i` (spec §4.3), masked to the sentinel `-FLT_MAX` when the
user's interaction row is positive at `i`. -/
def maskedScore (U V : Nat → Nat → ℚ) (F userIdx : Nat) (userRow : Nat → ℚ)
    (i : Nat) : ℚ :=
  if 0 < userRow i then negFltMax else dotUV F (U userIdx) (V i)

/-- Modelled from the spec and the recorded output of the source: the call
`model.recommend(userid, user_items, N, filter_already_liked_items=True)`
executes inside the implicit library (`implicit.als.AlternatingLeastSquares.recommend`),
whose code is not part of src/.  Per spec §4.3 every item `i` receives the
score `U_userIdx · V_i` and the ranking is by descending score with ties
broken by ascending item index.  The treatment of already-interacted items
follows the output documented in the comments of src/vrmodels/recommend.py
(`Recommendation IDs: [0 4 3 1 2]`, last score `-3.4028235e+38`): filtered
items are not removed but masked to the sentinel `-FLT_MAX`, and the top `N`
of all items are returned, so masked items pad the tail of the result when
fewer than `N` eligible items exist. -/
def modelRecommend (U V : Nat → Nat → ℚ) (F numItems userIdx : Nat)
    (userRow : Nat → ℚ) (N : Nat) : List (Nat × ℚ) :=
  (rankSort ((List.range numItems).map fun i =>
    (i, maskedScore U V F userIdx userRow i))).take N

/-- Python exception relevant to the serving path: `KeyError` raised by a
dict lookup miss.  The lookup `user_map[user_id]` on an unknown user raises
it; the spec calls this distinguished error `UnknownUser`. -/
inductive PyError where
  | keyError
  deriving DecidableEq

/-- Embedding of the result loop of `recommend` in src/vrmodels/recommend.py:
`for i, s in zip(ids, scores): results.append((reverse_video_map[i], float(s)))`;
a reverse-map miss would raise `KeyError`. -/
def mapResults (videoKeys : List String) : List (Nat × ℚ) → Except PyError (List (String × ℚ))
  | [] => .ok []
  | (i, s) :: rest =>
    match videoKeys.get? i with
    | none => .error .keyError
    | some k =>
      match mapResults videoKeys rest with
      | .ok l => .ok ((k, s) :: l)
      | .error e => .error e

/-- Module-level state of src/vrmodels/recommend.py after the load phase:
the ID mappings from data/mappings.pkl (stored as their ordered,
duplicate-free key lists), the ratings table from data/ratings.csv, and the
pickled model's factor matrices `U` (user factors) and `V` (item factors)
over `F` latent dimensions. -/
structure ServingState where
  userMap : List String
  videoMap : List String
  rows : List RatingRow
  F : Nat
  U : Nat → Nat → ℚ
  V : Nat → Nat → ℚ

/-- Embedding of `recommend(user_id, N)` from src/vrmodels/recommend.py:
resolve `user_idx = user_map[user_id]` (KeyError when absent), call
`model.recommend` on the user's row of the interaction matrix with
`filter_already_liked_items=True`, and translate item indices back to video
keys through `reverse_video_map`. -/
def recommend (st : ServingState) (user_id : String) (N : Nat) :
    Except PyError (List (String × ℚ)) :=
  match dictLookup st.userMap user_id with
  | none => .error .keyError
  | some user_idx =>
    mapResults st.videoMap
      (modelRecommend st.U st.V st.F st.videoMap.length user_idx
        (fun i => user_item_matrix st.rows st.userMap.length st.videoMap.length user_idx i)
        N)

/-- Body of the 404 responses produced by src/serving/app.py. -/
inductive NotFoundDetail where
  | userNotFound (user_id : String)
  | noRecommendations
  deriving DecidableEq

/-- HTTP-level outcome of the `recommend` handler of src/serving/app.py. -/
inductive AppResponse where
  | ok (userId : String) (recommendations : List (String × ℚ))
  | notFound (detail : NotFoundDetail)
  deriving DecidableEq

/-- Embedding of `recommend(user_id, k)` from src/serving/app.py: call the
model-layer `recommend`; an empty result list raises HTTP 404
"No recommendations available for user"; a `KeyError` escaping the call is
mapped to HTTP 404 "User not found". -/
def app_recommend (st : ServingState) (user_id : String) (k : Nat) : AppResponse :=
  match recommend st user_id k with
  | .ok recs =>
    if recs.isEmpty then .notFound .noRecommendations
    else .ok user_id recs
  | .error .keyError => .notFound (.userNotFound user_id)

/-- The ratings table of the 5-user/5-item scenario, exactly as printed in
the comments of src/vrmodels/train_model.py and src/vrmodels/recommend.py. -/
def scenarioRows : List RatingRow :=
  [⟨"u001", "v001", 3, 0, 0⟩,
   ⟨"u001", "v002", 1, 0, 1⟩,
   ⟨"u002", "v003", 4, 1, 2⟩,
   ⟨"u003", "v004", 1, 2, 3⟩,
   ⟨"u004", "v005", 3, 3, 4⟩,
   ⟨"u005", "v001", 1, 4, 0⟩]

/-- Serving state for the documented scenario: the mappings printed in the
source comments, the scenario ratings table, and a concrete single-factor
store (the claims settled on this state do not depend on the factor values,
which in the source come from training). -/
def scenarioState : ServingState :=
  ⟨["u001", "u002", "u003", "u004", "u005"],
   ["v001", "v002", "v003", "v004", "v005"],
   scenarioRows,
   1,
   fun _ _ => 1,
   fun i _ => (5 : ℚ) - (i : ℚ)⟩

/-- Output of `recommend(scenarioState, "u002", 5)`: all five items, the
already-interacted `v003` included at the tail with the sentinel score. -/
def scenarioResult : List (String × ℚ) :=
  [("v001", 5), ("v002", 4), ("v004", 2), ("v005", 1), ("v003", negFltMax)]

/-- Small concrete interaction log with a duplicated (user, video) pair,
used to instantiate the aggregation and mapping properties. -/
def wLog : List Interaction :=
  [⟨"u1", "v1", 2⟩, ⟨"u1", "v1", 1⟩, ⟨"u1", "v2", 5⟩, ⟨"u2", "v1", 4⟩]

/-- Small concrete aggregated ratings table used to instantiate the
ID-mapping properties. -/
def wAgg : List (String × String × ℚ) :=
  [("u1", "v1", 3), ("u1", "v2", 5), ("u2", "v1", 4)]

/-- Membership is preserved by first-seen deduplication. -/
theorem mem_firstSeen {α : Type} [DecidableEq α] (l : List α) (k : α) :
    k ∈ firstSeen l ↔ k ∈ l := by
  match l with
  | [] => simp [firstSeen]
  | x :: xs =>
    rw [firstSeen]
    by_cases hk : k = x
    · subst hk; simp
    · have ih := mem_firstSeen (xs.filter fun y => decide (y ≠ x)) k
      rw [List.mem_cons, ih, List.mem_filter, List.mem_cons]
      simp [hk]
termination_by l.length
decreasing_by
  simp only [List.length_cons]
  exact Nat.lt_succ_of_le (List.length_filter_le _ _)

/-- First-seen deduplication yields a duplicate-free list. -/
theorem nodup_firstSeen {α : Type} [DecidableEq α] (l : List α) :
    (firstSeen l).Nodup := by
  match l with
  | [] => simp [firstSeen]
  | x :: xs =>
    rw [firstSeen]
    refine List.nodup_cons.mpr ⟨?_, nodup_firstSeen _⟩
    intro hx
    rw [mem_firstSeen] at hx
    have := (List.mem_filter.mp hx).2
    simp at this
termination_by l.length
decreasing_by
  simp only [List.length_cons]
  exact Nat.lt_succ_of_le (List.length_filter_le _ _)

/-- A dict lookup misses exactly on absent keys (Python `KeyError`). -/
theorem dictLookup_eq_none {α : Type} [DecidableEq α] (l : List α) (k : α) :
    dictLookup l k = none ↔ k ∉ l := by
  induction l with
  | nil => simp [dictLookup]
  | cons x xs ih =>
    by_cases hx : x = k
    · subst hx; simp [dictLookup]
    · simp [dictLookup, hx, Option.map_eq_none', ih, Ne.symm hx]

/-- A successful dict lookup returns a position holding the key. -/
theorem dictLookup_get? {α : Type} [DecidableEq α] {l : List α} {k : α} {i : Nat}
    (h : dictLookup l k = some i) : l.get? i = some k := by
  induction l generalizing i with
  | nil => simp [dictLookup] at h
  | cons x xs ih =>
    by_cases hx : x = k
    · subst hx
      simp [dictLookup] at h
      simp [← h]
    · simp [dictLookup, hx, Option.map_eq_some'] at h
      obtain ⟨j, hj, rfl⟩ := h
      simpa using ih hj

/-- On a duplicate-free list the lookup recovers any position. -/
theorem get?_dictLookup {α : Type} [DecidableEq α] {l : List α} {k : α} {i : Nat}
    (hn : l.Nodup) (h : l.get? i = some k) : dictLookup l k = some i := by
  induction l generalizing i with
  | nil => simp at h
  | cons x xs ih =>
    obtain ⟨hx, hxs⟩ := List.nodup_cons.mp hn
    cases i with
    | zero =>
      simp at h
      simp [dictLookup, h]
    | succ j =>
      simp only [List.get?_cons_succ] at h
      have hk : k ∈ xs := List.get?_mem h
      have hne : x ≠ k := fun e => hx (e ▸ hk)
      rw [dictLookup, if_neg hne, ih hxs h]
      rfl

/-- Filtering a list preserves the relative order of the first occurrences
of any two keys that survive the filter. -/
theorem dictLookup_filter_lt {α : Type} [DecidableEq α] (p : α → Bool) (l : List α)
    {k1 k2 : α} {a b c d : Nat}
    (hk1 : p k1 = true) (hk2 : p k2 = true)
    (ha : dictLookup (l.filter p) k1 = some a) (hb : dictLookup (l.filter p) k2 = some b)
    (hc : dictLookup l k1 = some c) (hd : dictLookup l k2 = some d) :
    (a < b ↔ c < d) := by
  induction l generalizing a b c d with
  | nil => simp [dictLookup] at hc
  | cons x xs ih =>
    cases hp : p x with
    | false =>
      have hx1 : x ≠ k1 := fun e => by rw [e, hk1] at hp; cases hp
      have hx2 : x ≠ k2 := fun e => by rw [e, hk2] at hp; cases hp
      rw [List.filter_cons_of_neg (by simp [hp])] at ha hb
      rw [dictLookup, if_neg hx1, Option.map_eq_some'] at hc
      rw [dictLookup, if_neg hx2, Option.map_eq_some'] at hd
      obtain ⟨c', hc', rfl⟩ := hc
      obtain ⟨d', hd', rfl⟩ := hd
      rw [Nat.succ_lt_succ_iff]
      exact ih ha hb hc' hd'
    | true =>
      rw [List.filter_cons_of_pos hp] at ha hb
      by_cases h1 : x = k1 <;> by_cases h2 : x = k2
      · rw [dictLookup, if_pos h1] at ha
        rw [dictLookup, if_pos h1] at hc
        rw [dictLookup, if_pos h2] at hb
        rw [dictLookup, if_pos h2] at hd
        injection ha with ha
        injection hb with hb
        injection hc with hc
        injection hd with hd
        omega
      · rw [dictLookup, if_pos h1] at ha
        rw [dictLookup, if_pos h1] at hc
        rw [dictLookup, if_neg h2, Option.map_eq_some'] at hb
        rw [dictLookup, if_neg h2, Option.map_eq_some'] at hd
        obtain ⟨b', hb', rfl⟩ := hb
        obtain ⟨d', hd', rfl⟩ := hd
        injection ha with ha
        injection hc with hc
        omega
      · rw [dictLookup, if_neg h1, Option.map_eq_some'] at ha
        rw [dictLookup, if_neg h1, Option.map_eq_some'] at hc
        rw [dictLookup, if_pos h2] at hb
        rw [dictLookup, if_pos h2] at hd
        obtain ⟨a', ha', rfl⟩ := ha
        obtain ⟨c', hc', rfl⟩ := hc
        injection hb with hb
        injection hd with hd
        omega
      · rw [dictLookup, if_neg h1, Option.map_eq_some'] at ha
        rw [dictLookup, if_neg h1, Option.map_eq_some'] at hc
        rw [dictLookup, if_neg h2, Option.map_eq_some'] at hb
        rw [dictLookup, if_neg h2, Option.map_eq_some'] at hd
        obtain ⟨a', ha', rfl⟩ := ha
        obtain ⟨b', hb', rfl⟩ := hb
        obtain ⟨c', hc', rfl⟩ := hc
        obtain ⟨d', hd', rfl⟩ := hd
        rw [Nat.succ_lt_succ_iff, Nat.succ_lt_succ_iff]
        exact ih ha' hb' hc' hd'

/-- Indices assigned by enumerating the deduplicated key list respect the
order of first occurrence in the raw key list: a key gets a smaller index
than another exactly when its first occurrence comes earlier. -/
theorem firstSeen_order {α : Type} [DecidableEq α] (l : List α) {k1 k2 : α}
    {i1 i2 j1 j2 : Nat}
    (h1 : dictLookup (firstSeen l) k1 = some i1)
    (h2 : dictLookup (firstSeen l) k2 = some i2)
    (g1 : dictLookup l k1 = some j1)
    (g2 : dictLookup l k2 = some j2) :
    (i1 < i2 ↔ j1 < j2) := by
  match l with
  | [] => simp [dictLookup] at g1
  | x :: xs =>
    rw [firstSeen] at h1 h2
    by_cases e1 : x = k1 <;> by_cases e2 : x = k2
    · rw [dictLookup, if_pos e1] at h1
      rw [dictLookup, if_pos e1] at g1
      rw [dictLookup, if_pos e2] at h2
      rw [dictLookup, if_pos e2] at g2
      injection h1 with h1
      injection h2 with h2
      injection g1 with g1
      injection g2 with g2
      omega
    · rw [dictLookup, if_pos e1] at h1
      rw [dictLookup, if_pos e1] at g1
      rw [dictLookup, if_neg e2, Option.map_eq_some'] at h2
      rw [dictLookup, if_neg e2, Option.map_eq_some'] at g2
      obtain ⟨i2', _, rfl⟩ := h2
      obtain ⟨j2', _, rfl⟩ := g2
      injection h1 with h1
      injection g1 with g1
      omega
    · rw [dictLookup, if_neg e1, Option.map_eq_some'] at h1
      rw [dictLookup, if_neg e1, Option.map_eq_some'] at g1
      rw [dictLookup, if_pos e2] at h2
      rw [dictLookup, if_pos e2] at g2
      obtain ⟨i1', _, rfl⟩ := h1
      obtain ⟨j1', _, rfl⟩ := g1
      injection h2 with h2
      injection g2 with g2
      omega
    · rw [dictLookup, if_neg e1, Option.map_eq_some'] at h1
      rw [dictLookup, if_neg e1, Option.map_eq_some'] at g1
      rw [dictLookup, if_neg e2, Option.map_eq_some'] at h2
      rw [dictLookup, if_neg e2, Option.map_eq_some'] at g2
      obtain ⟨i1', h1', rfl⟩ := h1
      obtain ⟨j1', g1', rfl⟩ := g1
      obtain ⟨i2', h2', rfl⟩ := h2
      obtain ⟨j2', g2', rfl⟩ := g2
      have m1 : k1 ∈ xs.filter fun y => decide (y ≠ x) := by
        have : k1 ∈ firstSeen (xs.filter fun y => decide (y ≠ x)) := by
          by_contra hm
          rw [← dictLookup_eq_none] at hm
          rw [hm] at h1'
          cases h1'
        exact (mem_firstSeen _ _).mp this
      have m2 : k2 ∈ xs.filter fun y => decide (y ≠ x) := by
        have : k2 ∈ firstSeen (xs.filter fun y => decide (y ≠ x)) := by
          by_contra hm
          rw [← dictLookup_eq_none] at hm
          rw [hm] at h2'
          cases h2'
        exact (mem_firstSeen _ _).mp this
      obtain ⟨f1, hf1⟩ : ∃ f1, dictLookup (xs.filter fun y => decide (y ≠ x)) k1 = some f1 := by
        cases hf : dictLookup (xs.filter fun y => decide (y ≠ x)) k1 with
        | none => exact absurd ((dictLookup_eq_none _ _).mp hf) (not_not_intro m1)
        | some f => exact ⟨f, rfl⟩
      obtain ⟨f2, hf2⟩ : ∃ f2, dictLookup (xs.filter fun y => decide (y ≠ x)) k2 = some f2 := by
        cases hf : dictLookup (xs.filter fun y => decide (y ≠ x)) k2 with
        | none => exact absurd ((dictLookup_eq_none _ _).mp hf) (not_not_intro m2)
        | some f => exact ⟨f, rfl⟩
      have hrec := firstSeen_order (xs.filter fun y => decide (y ≠ x)) h1' h2' hf1 hf2
      have hflt := dictLookup_filter_lt (fun y => decide (y ≠ x)) xs
        (by simp [Ne.symm e1]) (by simp [Ne.symm e2]) hf1 hf2 g1' g2'
      rw [Nat.succ_lt_succ_iff, Nat.succ_lt_succ_iff]
      exact hrec.trans hflt
termination_by l.length
decreasing_by
  simp only [List.length_cons]
  exact Nat.lt_succ_of_le (List.length_filter_le _ _)

/-- Two keys looked up at the same index are the same key. -/
theorem dictLookup_inj {α : Type} [DecidableEq α] {l : List α} {k1 k2 : α} {i : Nat}
    (h1 : dictLookup l k1 = some i) (h2 : dictLookup l k2 = some i) : k1 = k2 := by
  have e1 := dictLookup_get? h1
  have e2 := dictLookup_get? h2
  rw [e1] at e2
  exact Option.some.inj e2

/-- The index set of an enumerated deduplicated key list is exactly
the interval [0, n). -/
theorem dictLookup_firstSeen_surj {α : Type} [DecidableEq α] (keys : List α) (i : Nat) :
    (∃ k, dictLookup (firstSeen keys) k = some i) ↔ i < (firstSeen keys).length := by
  constructor
  · rintro ⟨k, hk⟩
    obtain ⟨h, -⟩ := List.get?_eq_some.mp (dictLookup_get? hk)
    exact h
  · intro hi
    exact ⟨(firstSeen keys).get ⟨i, hi⟩,
      get?_dictLookup (nodup_firstSeen keys) (List.get?_eq_get hi)⟩

/-- C7: the user and video ID maps built by src/features/build_features.py
are bijections onto [0, n): each is injective, its index set is exactly the
interval [0, n), indices are assigned in first-seen order (a key receives a
smaller index than another exactly when its first occurrence in the raw
column comes earlier), and composing a map with its reverse map is the
identity on every mapped key. -/
theorem id_maps_are_bijections (agg : List (String × String × ℚ)) :
    (∀ k1 k2 i, user_map agg k1 = some i → user_map agg k2 = some i → k1 = k2) ∧
    (∀ k1 k2 i, video_map agg k1 = some i → video_map agg k2 = some i → k1 = k2) ∧
    (∀ i, (∃ k, user_map agg k = some i) ↔ i < num_users agg) ∧
    (∀ i, (∃ k, video_map agg k = some i) ↔ i < num_videos agg) ∧
    (∀ k1 k2 i1 i2 j1 j2, user_map agg k1 = some i1 → user_map agg k2 = some i2 →
      dictLookup (agg.map fun a => a.1) k1 = some j1 →
      dictLookup (agg.map fun a => a.1) k2 = some j2 → (i1 < i2 ↔ j1 < j2)) ∧
    (∀ k1 k2 i1 i2 j1 j2, video_map agg k1 = some i1 → video_map agg k2 = some i2 →
      dictLookup (agg.map fun a => a.2.1) k1 = some j1 →
      dictLookup (agg.map fun a => a.2.1) k2 = some j2 → (i1 < i2 ↔ j1 < j2)) ∧
    (∀ k i, video_map agg k = some i → reverse_video_map agg i = some k) ∧
    (∀ k i, user_map agg k = some i → (firstSeen (agg.map fun a => a.1)).get? i = some k) := by
  refine ⟨?_, ?_, ?_, ?_, ?_, ?_, ?_, ?_⟩
  · intro k1 k2 i h1 h2
    exact dictLookup_inj h1 h2
  · intro k1 k2 i h1 h2
    exact dictLookup_inj h1 h2
  · intro i
    exact dictLookup_firstSeen_surj _ i
  · intro i
    exact dictLookup_firstSeen_surj _ i
  · intro k1 k2 i1 i2 j1 j2 h1 h2 g1 g2
    exact firstSeen_order _ h1 h2 g1 g2
  · intro k1 k2 i1 i2 j1 j2 h1 h2 g1 g2
    exact firstSeen_order _ h1 h2 g1 g2
  · intro k i h
    exact dictLookup_get? h
  · intro k i h
    exact dictLookup_get? h

/-- C7 witness: on the concrete table `wAgg` the key "v2" maps to index 1 and
the reverse map carries index 1 back to "v2". -/
theorem id_maps_witness : reverse_video_map wAgg 1 = some "v2" :=
  (id_maps_are_bijections wAgg).2.2.2.2.2.2.1 "v2" 1
    (by simp +decide [video_map, wAgg, firstSeen, dictLookup])

/-- The key columns of the aggregated table are exactly the first-seen
deduplication of the raw (userId, videoId) pairs. -/
theorem aggregate_map_key (xs : List Interaction) :
    (aggregate xs).map (fun a => (a.1, a.2.1)) =
      firstSeen (xs.map fun x => (x.userId, x.videoId)) := by
  rw [aggregate, List.map_map]
  have hco : ((fun a : String × String × ℚ => (a.1, a.2.1)) ∘
      (fun p : String × String => (p.1, p.2,
        ((xs.filter fun x => decide (x.userId = p.1 ∧ x.videoId = p.2)).map
          fun x => x.interactionValue).sum))) = id := by
    funext p
    rfl
  rw [hco, List.map_id]

/-- C8: the feature-aggregation step produces exactly one record per
distinct (userId, videoId) pair, whose rating is the sum of that pair's raw
interaction values, and consequently the (user_idx, video_idx) coordinate
pairs that feed the matrix builder are pairwise distinct. -/
theorem aggregate_unique_sums (xs : List Interaction) :
    ((aggregate xs).map fun a => (a.1, a.2.1)).Nodup ∧
    (∀ u v, (u, v) ∈ xs.map (fun x => (x.userId, x.videoId)) ↔
      (u, v) ∈ (aggregate xs).map fun a => (a.1, a.2.1)) ∧
    (∀ a ∈ aggregate xs,
      a.2.2 = ((xs.filter fun x => decide (x.userId = a.1 ∧ x.videoId = a.2.1)).map
        fun x => x.interactionValue).sum) ∧
    ((withIdx xs).map fun r => (r.user_idx, r.video_idx)).Nodup := by
  have hkn : ((aggregate xs).map fun a => (a.1, a.2.1)).Nodup := by
    rw [aggregate_map_key]
    exact nodup_firstSeen _
  refine ⟨hkn, ?_, ?_, ?_⟩
  · intro u v
    rw [aggregate_map_key, mem_firstSeen]
  · intro a ha
    obtain ⟨p, hp, rfl⟩ := List.mem_map.mp ha
    rfl
  · have hfold : (withIdx xs).map (fun r => (r.user_idx, r.video_idx)) =
        (aggregate xs).map (fun a =>
          ((user_map (aggregate xs) a.1).getD 0,
           (video_map (aggregate xs) a.2.1).getD 0)) := by
      rw [withIdx, List.map_map]
      rfl
    rw [hfold]
    have hnagg : (aggregate xs).Nodup := List.Nodup.of_map _ hkn
    refine List.Nodup.map_on ?_ hnagg
    intro a1 h1 a2 h2 heq
    obtain ⟨ju1, hju1⟩ : ∃ j, user_map (aggregate xs) a1.1 = some j := by
      have hm : a1.1 ∈ firstSeen ((aggregate xs).map fun a => a.1) :=
        (mem_firstSeen _ _).mpr (List.mem_map_of_mem _ h1)
      cases hl : user_map (aggregate xs) a1.1 with
      | none => exact absurd ((dictLookup_eq_none _ _).mp hl) (not_not_intro hm)
      | some j => exact ⟨j, rfl⟩
    obtain ⟨ju2, hju2⟩ : ∃ j, user_map (aggregate xs) a2.1 = some j := by
      have hm : a2.1 ∈ firstSeen ((aggregate xs).map fun a => a.1) :=
        (mem_firstSeen _ _).mpr (List.mem_map_of_mem _ h2)
      cases hl : user_map (aggregate xs) a2.1 with
      | none => exact absurd ((dictLookup_eq_none _ _).mp hl) (not_not_intro hm)
      | some j => exact ⟨j, rfl⟩
    obtain ⟨jv1, hjv1⟩ : ∃ j, video_map (aggregate xs) a1.2.1 = some j := by
      have hm : a1.2.1 ∈ firstSeen ((aggregate xs).map fun a => a.2.1) :=
        (mem_firstSeen _ _).mpr (List.mem_map_of_mem _ h1)
      cases hl : video_map (aggregate xs) a1.2.1 with
      | none => exact absurd ((dictLookup_eq_none _ _).mp hl) (not_not_intro hm)
      | some j => exact ⟨j, rfl⟩
    obtain ⟨jv2, hjv2⟩ : ∃ j, video_map (aggregate xs) a2.2.1 = some j := by
      have hm : a2.2.1 ∈ firstSeen ((aggregate xs).map fun a => a.2.1) :=
        (mem_firstSeen _ _).mpr (List.mem_map_of_mem _ h2)
      cases hl : video_map (aggregate xs) a2.2.1 with
      | none => exact absurd ((dictLookup_eq_none _ _).mp hl) (not_not_intro hm)
      | some j => exact ⟨j, rfl⟩
    simp only [hju1, hju2, hjv1, hjv2, Option.getD_some, Prod.mk.injEq] at heq
    obtain ⟨hu, hv⟩ := heq
    have h11 : a1.1 = a2.1 :=
      dictLookup_inj hju1 (hju2.trans (congrArg some hu.symm))
    have h22 : a1.2.1 = a2.2.1 :=
      dictLookup_inj hjv1 (hjv2.trans (congrArg some hv.symm))
    exact List.inj_on_of_nodup_map hkn h1 h2 (by rw [Prod.mk.injEq]; exact ⟨h11, h22⟩)

/-- C8 witness: in the concrete log `wLog` the duplicated pair ("u1", "v1")
appears exactly once in the aggregated table, with rating 2 + 1 = 3. -/
theorem aggregate_witness :
    ("u1", "v1") ∈ (aggregate wLog).map fun a => (a.1, a.2.1) :=
  ((aggregate_unique_sums wLog).2.1 "u1" "v1").mp (by simp +decide [wLog])

/-- The ranking sort produces a list sorted for the rank order. -/
theorem sorted_rankSort (l : List (Nat × ℚ)) : List.Sorted rankLe (rankSort l) :=
  List.sorted_insertionSort rankLe l

/-- The ranking sort permutes its input. -/
theorem perm_rankSort (l : List (Nat × ℚ)) : (rankSort l).Perm l :=
  List.perm_insertionSort rankLe l

/-- Every pair returned by the modelled library call carries an item index
inside the item universe. -/
theorem modelRecommend_mem_lt {U V : Nat → Nat → ℚ} {F numItems userIdx : Nat}
    {userRow : Nat → ℚ} {N : Nat} {p : Nat × ℚ}
    (hp : p ∈ modelRecommend U V F numItems userIdx userRow N) :
    p.1 < numItems := by
  have h1 : p ∈ rankSort ((List.range numItems).map fun i =>
      (i, maskedScore U V F userIdx userRow i)) := List.mem_of_mem_take hp
  have h2 := (perm_rankSort _).mem_iff.mp h1
  obtain ⟨i, hi, rfl⟩ := List.mem_map.mp h2
  exact List.mem_range.mp hi

/-- C5: every result list produced by the modelled `model.recommend` call is
ordered: scores are non-increasing from the first pair to the last, and any
two pairs with equal score appear in strictly ascending item-index order. -/
theorem recommend_output_ordered (U V : Nat → Nat → ℚ) (F numItems userIdx : Nat)
    (userRow : Nat → ℚ) (N : Nat) :
    (modelRecommend U V F numItems userIdx userRow N).Pairwise
      (fun a b => b.2 ≤ a.2 ∧ (a.2 = b.2 → a.1 < b.1)) := by
  have hs : (rankSort ((List.range numItems).map fun i =>
      (i, maskedScore U V F userIdx userRow i))).Pairwise rankLe :=
    sorted_rankSort _
  have hne : (rankSort ((List.range numItems).map fun i =>
      (i, maskedScore U V F userIdx userRow i))).Pairwise
      (fun a b : Nat × ℚ => a.1 ≠ b.1) := by
    refine (List.Perm.pairwise_iff (fun h => Ne.symm h) (perm_rankSort _)).mpr ?_
    rw [List.pairwise_map]
    exact (List.pairwise_lt_range numItems).imp fun h => Nat.ne_of_lt h
  have hcomb := (hs.and hne).sublist (List.take_sublist N _)
  refine hcomb.imp ?_
  rintro a b ⟨hr, hab⟩
  rcases hr with hlt | ⟨heq, hle⟩
  · exact ⟨le_of_lt hlt, fun e => absurd (e ▸ hlt) (lt_irrefl _)⟩
  · exact ⟨le_of_eq heq.symm, fun _ => lt_of_le_of_ne hle hab⟩

/-- A result-translation loop over in-range item indices never raises. -/
theorem mapResults_ok (videoKeys : List String) (l : List (Nat × ℚ))
    (h : ∀ p ∈ l, p.1 < videoKeys.length) :
    ∃ r, mapResults videoKeys l = .ok r := by
  induction l with
  | nil => exact ⟨[], rfl⟩
  | cons p rest ih =>
    obtain ⟨i, s⟩ := p
    have hi : i < videoKeys.length := h (i, s) (List.mem_cons_self _ _)
    obtain ⟨r, hr⟩ := ih fun q hq => h q (List.mem_cons_of_mem _ hq)
    refine ⟨(videoKeys.get ⟨i, hi⟩, s) :: r, ?_⟩
    rw [mapResults, List.get?_eq_get hi, hr]

/-- C6: on a user key known to the mapping, the recommend operation never
errors; it returns a result list. -/
theorem valid_user_never_fails (st : ServingState) (user_id : String) (N : Nat)
    (h : user_id ∈ st.userMap) :
    ∃ l, recommend st user_id N = .ok l := by
  obtain ⟨idx, hidx⟩ : ∃ idx, dictLookup st.userMap user_id = some idx := by
    cases hd : dictLookup st.userMap user_id with
    | none => exact absurd ((dictLookup_eq_none _ _).mp hd) (not_not_intro h)
    | some i => exact ⟨i, rfl⟩
  obtain ⟨r, hr⟩ := mapResults_ok st.videoMap
    (modelRecommend st.U st.V st.F st.videoMap.length idx
      (fun i => user_item_matrix st.rows st.userMap.length st.videoMap.length idx i) N)
    (fun _ hp => modelRecommend_mem_lt hp)
  refine ⟨r, ?_⟩
  rw [recommend, hidx]
  exact hr

/-- C6 witness: the known key "u002" of the scenario state yields a result. -/
theorem valid_user_witness :
    ∃ l, recommend scenarioState "u002" 5 = .ok l :=
  valid_user_never_fails scenarioState "u002" 5 (by simp +decide [scenarioState])

/-- C4: a user key absent from the ID mapping makes the model-layer
recommend fail with the distinguished KeyError (the spec's `UnknownUser`),
not return a list, and the serving layer maps exactly this error to its
user-not-found response, which is distinct from the empty-result
no-recommendations response. -/
theorem unknown_user_is_distinguished (st : ServingState) (user_id : String) (k : Nat)
    (h : user_id ∉ st.userMap) :
    recommend st user_id k = .error PyError.keyError ∧
    app_recommend st user_id k = .notFound (NotFoundDetail.userNotFound user_id) ∧
    NotFoundDetail.userNotFound user_id ≠ NotFoundDetail.noRecommendations := by
  have hd : dictLookup st.userMap user_id = none := (dictLookup_eq_none _ _).mpr h
  have h1 : recommend st user_id k = .error PyError.keyError := by
    rw [recommend, hd]
  refine ⟨h1, ?_, by simp⟩
  rw [app_recommend, h1]

/-- C4 witness: the key "u999" is not in the scenario mapping and produces
the KeyError and the user-not-found response. -/
theorem unknown_user_witness :
    recommend scenarioState "u999" 5 = .error PyError.keyError ∧
    app_recommend scenarioState "u999" 5 =
      .notFound (NotFoundDetail.userNotFound "u999") ∧
    NotFoundDetail.userNotFound "u999" ≠ NotFoundDetail.noRecommendations :=
  unknown_user_is_distinguished scenarioState "u999" 5 (by simp +decide [scenarioState])

/-- Left-fold accumulation of additions equals the initial value plus the
sum of the mapped list. -/
theorem foldl_add_eq_sum (l : List RatingRow) (init : ℚ) :
    l.foldl (fun acc r => acc + r.rating) init =
      init + (l.map fun r => r.rating).sum := by
  induction l generalizing init with
  | nil => simp
  | cons r rest ih => simp [ih, add_assoc]

/-- C9: the serving-side interaction matrix construction of
src/vrmodels/recommend.py is an exact re-implementation of the
training-side one of src/vrmodels/train_model.py — built from the same
ratings table and the same declared dimensions, the two matrices agree
entry for entry. -/
theorem serving_matrix_refines_training (rows : List RatingRow)
    (numUsers numVideos u i : Nat) :
    user_item_matrix rows numUsers numVideos u i =
      trainMatrix rows numUsers numVideos u i := by
  rw [user_item_matrix, trainMatrix]
  by_cases h : u < numUsers ∧ i < numVideos
  · rw [if_pos h, if_pos h, foldl_add_eq_sum, zero_add]
  · rw [if_neg h, if_neg h]

/-- C10: precision_at_k equals the intersection-cardinality formula
divided by k, lies in [0, 1] whenever k ≥ 1, and depends only on the first
k recommended items. -/
theorem precision_at_k_props (recommended relevant other : List String) (k : Nat)
    (hk : 1 ≤ k) :
    precision_at_k recommended relevant k =
      (((recommended.take k).toFinset ∩ relevant.toFinset).card : ℚ) / (k : ℚ) ∧
    0 ≤ precision_at_k recommended relevant k ∧
    precision_at_k recommended relevant k ≤ 1 ∧
    (recommended.take k = other.take k →
      precision_at_k recommended relevant k = precision_at_k other relevant k) := by
  refine ⟨rfl, ?_, ?_, ?_⟩
  · exact div_nonneg (by positivity) (by positivity)
  · have h1 : ((recommended.take k).toFinset ∩ relevant.toFinset).card ≤ k :=
      le_trans (Finset.card_le_card Finset.inter_subset_left)
        (le_trans (List.toFinset_card_le _) (List.length_take_le _ _))
    have hkpos : (0 : ℚ) < (k : ℚ) := by
      exact_mod_cast Nat.lt_of_lt_of_le Nat.zero_lt_one hk
    rw [precision_at_k, div_le_one hkpos]
    exact_mod_cast h1
  · intro h
    rw [precision_at_k, precision_at_k, h]

/-- C10 witness: precision of the first two of ["a", "b", "c"] against the
relevant set of "b" and "z" lies within [0, 1]. -/
theorem precision_at_k_witness :
    0 ≤ precision_at_k ["a", "b", "c"] ["b", "z"] 2 ∧
    precision_at_k ["a", "b", "c"] ["b", "z"] 2 ≤ 1 :=
  ⟨(precision_at_k_props ["a", "b", "c"] ["b", "z"] ["a", "b"] 2 (by norm_num)).2.1,
   (precision_at_k_props ["a", "b", "c"] ["b", "z"] ["a", "b"] 2 (by norm_num)).2.2.1⟩

/-- Evaluation of the scenario call documented in the comments of
src/vrmodels/recommend.py: `recommend("u002", 5)` returns all five items,
the already-interacted one included at the tail with the sentinel score. -/
theorem scenario_recommend_eval :
    recommend scenarioState "u002" 5 = .ok scenarioResult := by
  norm_num +decide [recommend, scenarioState, scenarioResult, dictLookup,
    modelRecommend, maskedScore, rankSort, List.insertionSort, List.orderedInsert,
    rankLe, dotUV, negFltMax, user_item_matrix, scenarioRows, mapResults]

/-- C1, evaluated at the failing input: user u002 has a positive interaction
with item index 2 (key "v003"), yet "v003" appears in the output of
`recommend("u002", K=5)`, carried with the sentinel score — exactly the
output recorded in the source comments.  The filtering claim fails on this
code. -/
theorem interacted_item_appears_in_output :
    0 < user_item_matrix scenarioRows 5 5 1 2 ∧
    recommend scenarioState "u002" 5 = .ok scenarioResult ∧
    "v003" ∈ scenarioResult.map Prod.fst := by
  refine ⟨by norm_num [user_item_matrix, scenarioRows], scenario_recommend_eval, ?_⟩
  simp [scenarioResult]

/-- C2, evaluated at the failing input: with K = 5, five items and one
interacted item, the call returns 5 pairs although
min(K, num_items − interacted_count) = 4.  The length claim fails on this
code. -/
theorem output_length_breaks_invariant :
    recommend scenarioState "u002" 5 = .ok scenarioResult ∧
    scenarioResult.length = 5 ∧
    interactedCount scenarioRows 5 5 1 = 1 ∧
    min 5 (5 - interactedCount scenarioRows 5 5 1) = 4 := by
  refine ⟨scenario_recommend_eval, rfl, ?_, ?_⟩
  · norm_num +decide [interactedCount, user_item_matrix, scenarioRows,
      List.range, List.range.loop]
  · norm_num +decide [interactedCount, user_item_matrix, scenarioRows,
      List.range, List.range.loop]

/-- C3, evaluated on the constructor call of src/vrmodels/train_model.py:
the model is built without any random_state argument, so no fixed seed is
set and the fixed-seed premise of the determinism claim does not hold on
this code. -/
theorem train_config_has_no_seed : trainModelConfig.random_state = none := rfl

end VideoRec
